import Mathlib

/-!
Shallow embedding of the form-state and content-listing logic of the
Devtool repository: the controlled-form components (`Contact` in
part_003/part_004, `Register` in part_007) and the static catalog pages
(`Documents.tsx`, `Media` in part_010), together with the spec's
design-level Validator, Submission Controller and Category Filter, which
have no implementation in src/ (the forms delegate validation to the
browser's `required` attributes and the category buttons carry no click
handler), and so are modelled from the spec's words where noted.
-/

namespace Devtool

/-- A value stored in one form field: the source keeps `string | boolean`
entries in the `formData` object (text inputs store strings, checkboxes
store booleans). -/
inductive FValue
  | str (s : String)
  | bool (b : Bool)
deriving DecidableEq

/-- `FormState`: the `formData` object, a string-keyed dictionary of field
values.  A key absent from the object maps to `none`. -/
def FormState : Type := String → Option FValue

/-- The update performed by `setFormData(prev => ({...prev, [name]: value}))`:
the computed key `name` is overwritten, every other key is kept. -/
def setField (st : FormState) (name : String) (v : FValue) : FormState :=
  fun k => if k = name then some v else st k

/-- The data of a React change event that `handleInputChange` destructures:
`const { name, value, type } = e.target` plus `e.target.checked`.
The `type` property is called `ttype` here. -/
structure ChangeEvent where
  name : String
  value : String
  checked : Bool
  ttype : String
deriving DecidableEq

/-- `handleInputChange` of the Register form (part_007, lines 155-161):
stores `type === 'checkbox' ? e.target.checked : value` under the key
`name`, spreading the previous snapshot for all other keys. -/
def handleInputChange (ev : ChangeEvent) (st : FormState) : FormState :=
  setField st ev.name
    (if ev.ttype == "checkbox" then FValue.bool ev.checked else FValue.str ev.value)

/-- `handleInputChange` of the Contact form (part_003, lines 16-22): no
checkbox branch, always stores the string `value` under key `name`. -/
def handleInputChangeContact (ev : ChangeEvent) (st : FormState) : FormState :=
  setField st ev.name (FValue.str ev.value)

/-- The initial `formData` object of the Register form (part_007,
lines 134-147), as an association list in declaration order. -/
def registerInit : List (String × FValue) :=
  [("firstName", FValue.str ""),
   ("lastName", FValue.str ""),
   ("email", FValue.str ""),
   ("phone", FValue.str ""),
   ("idNumber", FValue.str ""),
   ("region", FValue.str ""),
   ("constituency", FValue.str ""),
   ("address", FValue.str ""),
   ("occupation", FValue.str ""),
   ("membershipType", FValue.str "full"),
   ("agreeToTerms", FValue.bool false),
   ("subscribeNewsletter", FValue.bool true)]

/-- The Register form's initial `FormState` (the mount-time `useState`
argument): each declared key maps to its declared initial value. -/
def registerDefaults : FormState := fun n => registerInit.lookup n

/-- The field names declared by the Register form's `formData` object. -/
def declaredRegisterFields : List String := registerInit.map Prod.fst

/-- The initial `formData` object of the Contact form (part_003,
lines 9-14). -/
def contactInit : List (String × FValue) :=
  [("firstName", FValue.str ""),
   ("lastName", FValue.str ""),
   ("email", FValue.str ""),
   ("message", FValue.str "")]

/-- The Contact form's initial `FormState`. -/
def contactDefaults : FormState := fun n => contactInit.lookup n

/-- A sequence of raw field updates applied left to right with `setField`
(each update is one `setFormData(prev => ({...prev, [name]: value}))`). -/
def applyUpdates (ops : List (String × FValue)) (st : FormState) : FormState :=
  ops.foldl (fun s p => setField s p.1 p.2) st

/-- A sequence of change events applied left to right through
`handleInputChange`. -/
def applyChanges (evs : List ChangeEvent) (st : FormState) : FormState :=
  evs.foldl (fun s e => handleInputChange e s) st

/-- The names of the two `type="checkbox"` inputs of the Register form
(part_007): `agreeToTerms` and `subscribeNewsletter`;  every other input
is a text, email, tel, select, textarea or radio input. -/
def boolFields : List String := ["agreeToTerms", "subscribeNewsletter"]

/-- A change event is well formed for the Register form when its target
type is `"checkbox"` exactly for the two checkbox inputs — the shape of
every event the rendered form can emit. -/
def wellFormedEv (ev : ChangeEvent) : Bool :=
  (ev.ttype == "checkbox") == (boolFields.contains ev.name)

/-- One field's typing condition: a declared field holds a boolean value
exactly when it is one of the checkbox fields, and always holds a value. -/
def fieldTypeOk (st : FormState) (f : String) : Bool :=
  match st f with
  | some (FValue.bool _) => boolFields.contains f
  | some (FValue.str _) => !(boolFields.contains f)
  | none => false

/-- All declared Register fields satisfy their typing condition. -/
def typeOkB (st : FormState) : Bool :=
  declaredRegisterFields.all (fieldTypeOk st)

/-- One record of the `documents` catalog of `Documents.tsx`. -/
structure DocumentRecord where
  id : Nat
  title : String
  description : String
  date : String
  size : String
  category : String
deriving DecidableEq

/-- One record of the `mediaArticles` catalog of the Media page (part_010). -/
structure MediaArticle where
  id : Nat
  title : String
  excerpt : String
  content : String
  date : String
  category : String
  author : String
  featured : Bool
deriving DecidableEq

/-- The `documents` array of `Documents.tsx`, lines 6-55. -/
def documents : List DocumentRecord :=
  [{ id := 1,
     title := "Party Constitution",
     description := "The founding document outlining our principles, structure, and governance framework.",
     date := "2024-01-15", size := "2.3 MB", category := "Governance" },
   { id := 2,
     title := "Economic Policy Framework",
     description := "Comprehensive policy document on economic development, job creation, and fiscal responsibility.",
     date := "2024-03-20", size := "4.1 MB", category := "Policy" },
   { id := 3,
     title := "Education Reform Proposal",
     description := "Detailed plan for improving Namibia's education system from primary to tertiary level.",
     date := "2024-04-10", size := "3.7 MB", category := "Policy" },
   { id := 4,
     title := "Healthcare Accessibility Plan",
     description := "Strategy for expanding healthcare access and improving medical services nationwide.",
     date := "2024-05-05", size := "2.8 MB", category := "Policy" },
   { id := 5,
     title := "Environmental Protection Charter",
     description := "Our commitment to environmental conservation and sustainable development practices.",
     date := "2024-05-25", size := "1.9 MB", category := "Environment" },
   { id := 6,
     title := "Youth Empowerment Strategy",
     description := "Comprehensive approach to creating opportunities and supporting young Namibians.",
     date := "2024-06-10", size := "3.2 MB", category := "Youth" }]

/-- The `mediaArticles` array of the Media page (part_010, lines 5-66). -/
def mediaArticles : List MediaArticle :=
  [{ id := 1,
     title := "People Unite for Change Launches Community Outreach Program",
     excerpt := "Our party announces new initiatives to engage directly with communities across Namibia, focusing on grassroots democracy and citizen participation in the political process.",
     content := "In a groundbreaking move to strengthen democratic participation, People Unite for Change has launched a comprehensive community outreach program across all 14 regions of Namibia...",
     date := "2024-06-20", category := "Community",
     author := "Communications Team", featured := true },
   { id := 2,
     title := "Economic Policy Framework Released for Public Review",
     excerpt := "Comprehensive economic policy document outlines our vision for sustainable growth, job creation, and poverty reduction strategies for Namibia's future.",
     content := "The detailed economic framework addresses key challenges facing Namibia, including unemployment, income inequality, and sustainable development goals...",
     date := "2024-06-18", category := "Policy",
     author := "Policy Research Team", featured := true },
   { id := 3,
     title := "Youth Leadership Summit Scheduled for July 2024",
     excerpt := "Young leaders from across the country will gather to discuss the future of Namibian politics and their role in shaping democratic change.",
     content := "The summit will bring together 200 young leaders aged 18-35 from all regions to participate in workshops, panel discussions, and policy development sessions...",
     date := "2024-06-15", category := "Youth",
     author := "Youth Development Committee", featured := false },
   { id := 4,
     title := "Environmental Conservation Initiative Launched",
     excerpt := "New program focuses on protecting Namibia's natural heritage while promoting sustainable economic development across rural communities.",
     content := "The initiative includes tree planting campaigns, water conservation projects, and sustainable agriculture training programs...",
     date := "2024-06-12", category := "Environment",
     author := "Environmental Policy Team", featured := false },
   { id := 5,
     title := "Education Reform Proposal Gains Public Support",
     excerpt := "Public consultations reveal strong support for proposed changes to Namibia's education system, focusing on improved access and quality.",
     content := "Following extensive public consultations across all regions, the education reform proposal has received overwhelming support from parents, teachers, and students...",
     date := "2024-06-08", category := "Education",
     author := "Education Policy Committee", featured := false },
   { id := 6,
     title := "Healthcare Accessibility Plan Unveiled",
     excerpt := "Comprehensive strategy to improve healthcare delivery and accessibility in both urban and rural areas of Namibia.",
     content := "The plan includes mobile health clinics, telemedicine programs, and increased investment in healthcare infrastructure...",
     date := "2024-06-05", category := "Healthcare",
     author := "Healthcare Policy Team", featured := false }]

/-- `featuredArticles = mediaArticles.filter(article => article.featured)`
(part_010, line 69). -/
def featuredArticles : List MediaArticle :=
  mediaArticles.filter (fun article => article.featured)

/-- `regularArticles = mediaArticles.filter(article => !article.featured)`
(part_010, line 70). -/
def regularArticles : List MediaArticle :=
  mediaArticles.filter (fun article => !article.featured)

/-- One step of building a JS `Set` by iteration: insert the element at
the end unless it is already present (a `Set` keeps first insertions and
iterates in insertion order). -/
def insertIfAbsent (seen : List String) (c : String) : List String :=
  if c ∈ seen then seen else seen ++ [c]

/-- `[...new Set(catalog.map(r => r.category))]` (Documents.tsx line 57 and
part_010 line 68): build a `Set` from the mapped categories by left-to-right
insertion, then spread it in insertion order. -/
def categoriesOf {α : Type} (category : α → String) (catalog : List α) :
    List String :=
  (catalog.map category).foldl insertIfAbsent []

/-- The `categories` constant of `Documents.tsx` (line 57). -/
def documentsCategories : List String :=
  categoriesOf DocumentRecord.category documents

/-- The `categories` constant of the Media page (part_010, line 68). -/
def mediaCategories : List String :=
  categoriesOf MediaArticle.category mediaArticles

/-- First-occurrence deduplication: keep each element's first occurrence,
in order, dropping the later duplicates.  This is the function a JS `Set`
computes when it is built by left-to-right insertion and then spread. -/
def dedupFirst : List String → List String
  | [] => []
  | x :: xs => x :: dedupFirst (xs.filter (fun y => y != x))
termination_by l => l.length
decreasing_by
  simp only [List.length_cons]
  exact Nat.lt_succ_of_le (List.length_filter_le _ _)

/-- Modelled from the spec: the Category Filter of spec section 4.4.  The
category-selection buttons rendered by `Documents.tsx` (lines 80-131) and
the Media page carry no click handler, so the filter
`filter(catalog, selected)` exists only as the spec's contract: it returns
the ordered subsequence of records whose category equals `selected`, or the
full catalog unchanged when `selected` is the `"all"` sentinel. -/
def filterByCategory {α : Type} (category : α → String) (catalog : List α)
    (selected : String) : List α :=
  if selected = "all" then catalog
  else catalog.filter (fun r => category r == selected)

/-- Modelled from the spec: the `local@domain.tld` shape that spec
section 4.2 requires of email-kind fields (no validation code exists in
src/; the forms rely on browser-native constraint validation).  The string
must split on `@` into exactly a non-empty local part and a domain part
made of at least two non-empty dot-separated segments. -/
def emailOk (s : String) : Bool :=
  match s.toList.splitOn '@' with
  | [localPart, domainPart] =>
      (!localPart.isEmpty) &&
      (let segs := domainPart.splitOn '.'
       decide (2 ≤ segs.length) && segs.all (fun seg => !seg.isEmpty))
  | _ => false

/-- Modelled from the spec: the value kinds of spec section 3
(text, email, phone, select-from-enumerated-set, checkbox), extended with
the textarea and radio inputs the forms actually render. -/
inductive FieldKind
  | text
  | email
  | phone
  | select
  | checkbox
  | textarea
  | radio
deriving DecidableEq

/-- Modelled from the spec: `FieldSchema` of spec section 3 — per field a
name, a required flag and a value kind (the format predicate is determined
by the kind). -/
structure FieldSchema where
  name : String
  required : Bool
  kind : FieldKind
deriving DecidableEq

/-- A field value is empty when the key is absent, the string is empty, or
the checkbox is unchecked. -/
def isEmptyVal : Option FValue → Bool
  | none => true
  | some (FValue.str s) => s.isEmpty
  | some (FValue.bool b) => !b

/-- Modelled from the spec: the format rule of a field, by kind — email
fields must match the `local@domain.tld` shape, every other kind imposes
no format constraint. -/
def formatOk (k : FieldKind) : Option FValue → Bool
  | some (FValue.str s) => if k = FieldKind.email then emailOk s else true
  | _ => true

/-- Modelled from the spec: the per-field errors of the Validator (spec
section 4.2) — a "required" error for a required field with an empty
value, an "invalid format" error for a non-empty value failing its
kind's format rule. -/
def fieldErrors (st : FormState) (f : FieldSchema) : List (String × String) :=
  (if f.required && isEmptyVal (st f.name) then [(f.name, "required")] else []) ++
  (if !isEmptyVal (st f.name) && !formatOk f.kind (st f.name) then
    [(f.name, "invalid format")] else [])

/-- Modelled from the spec: `validate(FormState, FieldSchema[]) ->
ValidationResult` (spec section 4.2), a pure function evaluating each
field's rules independently and collecting all errors. -/
def validate (st : FormState) : List FieldSchema → List (String × String)
  | [] => []
  | f :: fs => fieldErrors st f ++ validate st fs

/-- The Register form's `FieldSchema` list, read off the JSX of part_007:
the starred inputs carry the `required` attribute; `constituency`,
`address`, `occupation`, `membershipType` and `subscribeNewsletter` do not. -/
def registerFields : List FieldSchema :=
  [{ name := "firstName", required := true, kind := FieldKind.text },
   { name := "lastName", required := true, kind := FieldKind.text },
   { name := "email", required := true, kind := FieldKind.email },
   { name := "phone", required := true, kind := FieldKind.phone },
   { name := "idNumber", required := true, kind := FieldKind.text },
   { name := "region", required := true, kind := FieldKind.select },
   { name := "constituency", required := false, kind := FieldKind.text },
   { name := "address", required := false, kind := FieldKind.textarea },
   { name := "occupation", required := false, kind := FieldKind.text },
   { name := "membershipType", required := false, kind := FieldKind.radio },
   { name := "agreeToTerms", required := true, kind := FieldKind.checkbox },
   { name := "subscribeNewsletter", required := false, kind := FieldKind.checkbox }]

/-- A fully-filled Register snapshot used to exercise the Validator on
concrete input. -/
def registerFilledInit : List (String × FValue) :=
  [("firstName", FValue.str "Ada"),
   ("lastName", FValue.str "Lovelace"),
   ("email", FValue.str "ada@example.com"),
   ("phone", FValue.str "+264 81 123 4567"),
   ("idNumber", FValue.str "85121500123"),
   ("region", FValue.str "Khomas"),
   ("constituency", FValue.str ""),
   ("address", FValue.str ""),
   ("occupation", FValue.str ""),
   ("membershipType", FValue.str "full"),
   ("agreeToTerms", FValue.bool true),
   ("subscribeNewsletter", FValue.bool true)]

/-- The filled Register snapshot as a `FormState`. -/
def registerFilled : FormState := fun n => registerFilledInit.lookup n

/-- Modelled from the spec: the states of the Submission Controller state
machine (spec section 4.3).  The `handleSubmit` handlers in src/
(part_003 lines 24-28, part_007 lines 163-168) only log the snapshot and
show an alert, so the machine exists only as the spec's design. -/
inductive SubState
  | idle
  | validating
  | submitting
  | success
  | error
deriving DecidableEq

/-- Modelled from the spec: the events driving the Submission Controller —
the user's submit, the synchronous validation step, and the asynchronous
submission sink's completion (success or failure). -/
inductive SubmitEvent
  | submit
  | runValidation
  | sinkSuccess
  | sinkFailure
deriving DecidableEq

/-- Modelled from the spec: a Submission Controller configuration — the
machine state together with the owned `FormState`. -/
structure Controller where
  sub : SubState
  form : FormState

/-- Modelled from the spec: the transition function of the Submission
Controller (spec section 4.3).  `idle --submit--> validating`; in
`validating` the Validator runs synchronously, entering `error` when any
error is present and `submitting` otherwise; on sink success the fields
reset to the schema defaults; on sink failure the fields are retained
as entered.  Events not enabled in the current state leave the
configuration unchanged. -/
def controllerStep (schema : List FieldSchema) (defaults : FormState)
    (ev : SubmitEvent) (c : Controller) : Controller :=
  match ev, c.sub with
  | SubmitEvent.submit, SubState.idle => { c with sub := SubState.validating }
  | SubmitEvent.runValidation, SubState.validating =>
      if validate c.form schema = [] then { c with sub := SubState.submitting }
      else { c with sub := SubState.error }
  | SubmitEvent.sinkSuccess, SubState.submitting =>
      { sub := SubState.success, form := defaults }
  | SubmitEvent.sinkFailure, SubState.submitting =>
      { c with sub := SubState.error }
  | _, _ => c

example : registerDefaults "membershipType" = some (FValue.str "full") := by decide
example : registerDefaults "subscribeNewsletter" = some (FValue.bool true) := by decide
example : registerDefaults "nosuch" = none := by decide
example : documentsCategories = ["Governance", "Policy", "Environment", "Youth"] := by decide
example : mediaCategories =
    ["Community", "Policy", "Youth", "Environment", "Education", "Healthcare"] := by decide
example : featuredArticles.map MediaArticle.id = [1, 2] := by decide
example : (filterByCategory DocumentRecord.category documents "Policy").map
    DocumentRecord.id = [2, 3, 4] := by decide
example : (filterByCategory MediaArticle.category mediaArticles "Policy").map
    MediaArticle.id = [2] := by decide
example : emailOk "ada@example.com" = true := by decide
example : emailOk "not-an-email" = false := by decide
example : validate registerFilled registerFields = [] := by decide
example : ("firstName", "required") ∈ validate registerDefaults registerFields := by decide

lemma applyUpdates_nil (st : FormState) : applyUpdates [] st = st := rfl

lemma applyUpdates_cons (p : String × FValue) (ps : List (String × FValue))
    (st : FormState) :
    applyUpdates (p :: ps) st = applyUpdates ps (setField st p.1 p.2) := rfl

lemma applyChanges_nil (st : FormState) : applyChanges [] st = st := rfl

lemma applyChanges_cons (e : ChangeEvent) (es : List ChangeEvent)
    (st : FormState) :
    applyChanges (e :: es) st = applyChanges es (handleInputChange e st) := rfl

lemma validate_eq_nil (st : FormState) (schema : List FieldSchema)
    (hreq : ∀ f ∈ schema, f.required = true → isEmptyVal (st f.name) = false)
    (hfmt : ∀ f ∈ schema, formatOk f.kind (st f.name) = true) :
    validate st schema = [] := by
  induction schema with
  | nil => rfl
  | cons f fs ih =>
      have h1 : fieldErrors st f = [] := by
        unfold fieldErrors
        rcases hr : f.required with _ | _
        · have hf := hfmt f (List.mem_cons_self f fs)
          simp [hr, hf]
        · have he := hreq f (List.mem_cons_self f fs) hr
          have hf := hfmt f (List.mem_cons_self f fs)
          simp [hr, he, hf]
      have h2 : validate st fs = [] :=
        ih (fun g hg => hreq g (List.mem_cons_of_mem f hg))
          (fun g hg => hfmt g (List.mem_cons_of_mem f hg))
      simp [validate, h1, h2]

lemma required_mem_validate (st : FormState) (schema : List FieldSchema)
    (f : FieldSchema) (hf : f ∈ schema) (hreq : f.required = true)
    (hemp : isEmptyVal (st f.name) = true) :
    (f.name, "required") ∈ validate st schema := by
  induction schema with
  | nil => cases hf
  | cons g gs ih =>
      rcases List.mem_cons.mp hf with heq | hmem
      · subst heq
        have : (f.name, "required") ∈ fieldErrors st f := by
          unfold fieldErrors
          simp [hreq, hemp]
        exact List.mem_append_left _ this
      · exact List.mem_append_right _ (ih hmem)

lemma dedupFirst_nil : dedupFirst [] = [] := by
  simp [dedupFirst]

lemma dedupFirst_cons (x : String) (xs : List String) :
    dedupFirst (x :: xs) = x :: dedupFirst (xs.filter (fun y => y != x)) := by
  simp [dedupFirst]

lemma mem_dedupFirst {a : String} : ∀ {l : List String}, a ∈ dedupFirst l ↔ a ∈ l := by
  intro l
  induction l using dedupFirst.induct with
  | case1 => simp [dedupFirst_nil]
  | case2 x xs ih =>
      rw [dedupFirst_cons]
      simp only [List.mem_cons, ih, List.mem_filter, bne_iff_ne]
      by_cases h : a = x <;> simp [h]

lemma nodup_dedupFirst : ∀ (l : List String), (dedupFirst l).Nodup := by
  intro l
  induction l using dedupFirst.induct with
  | case1 => simp [dedupFirst_nil]
  | case2 x xs ih =>
      rw [dedupFirst_cons]
      refine List.nodup_cons.mpr ⟨?_, ih⟩
      intro hx
      have := (List.mem_filter.mp (mem_dedupFirst.mp hx)).2
      simp at this

lemma dedupFirst_sublist : ∀ (l : List String), (dedupFirst l).Sublist l := by
  intro l
  induction l using dedupFirst.induct with
  | case1 => simp [dedupFirst_nil]
  | case2 x xs ih =>
      rw [dedupFirst_cons]
      exact (ih.trans (List.filter_sublist xs)).cons₂ x

lemma indexOf_filter_mono {x a b : String} : ∀ {l : List String},
    a ∈ l.filter (fun y => y != x) → b ∈ l.filter (fun y => y != x) →
    (l.filter (fun y => y != x)).indexOf a < (l.filter (fun y => y != x)).indexOf b →
    l.indexOf a < l.indexOf b := by
  intro l
  induction l with
  | nil => intro ha; simp at ha
  | cons y ys ih =>
      intro ha hb h
      have hax : a ≠ x := by
        have := (List.mem_filter.mp ha).2; simpa using this
      have hbx : b ≠ x := by
        have := (List.mem_filter.mp hb).2; simpa using this
      by_cases hyx : y = x
      · subst hyx
        have hfil : (y :: ys).filter (fun z => z != y) = ys.filter (fun z => z != y) := by
          simp
        rw [hfil] at ha hb h
        have hay : y ≠ a := fun hc => hax hc.symm
        have hby : y ≠ b := fun hc => hbx hc.symm
        rw [List.indexOf_cons_ne _ hay, List.indexOf_cons_ne _ hby]
        exact Nat.succ_lt_succ (ih ha hb h)
      · have hfil : (y :: ys).filter (fun z => z != x) =
            y :: ys.filter (fun z => z != x) := by
          simp [hyx]
        rw [hfil] at ha hb h
        by_cases hay : a = y
        · subst hay
          rw [List.indexOf_cons_self] at *
          have hby : b ≠ a := by
            intro hc
            subst hc
            rw [List.indexOf_cons_self] at h
            exact Nat.lt_irrefl _ h
          have hby' : a ≠ b := fun hc => hby hc.symm
          rw [List.indexOf_cons_ne _ hby']
          exact Nat.succ_pos _
        · have hay' : y ≠ a := fun hc => hay hc.symm
          rw [List.indexOf_cons_ne _ hay'] at h
          by_cases hby : b = y
          · subst hby
            rw [List.indexOf_cons_self] at h
            exact absurd h (Nat.not_lt_zero _)
          · have hby' : y ≠ b := fun hc => hby hc.symm
            rw [List.indexOf_cons_ne _ hby'] at h
            have ha' : a ∈ ys.filter (fun z => z != x) := by
              rcases List.mem_cons.mp ha with hc | hc
              · exact absurd hc hay
              · exact hc
            have hb' : b ∈ ys.filter (fun z => z != x) := by
              rcases List.mem_cons.mp hb with hc | hc
              · exact absurd hc hby
              · exact hc
            rw [List.indexOf_cons_ne _ hay', List.indexOf_cons_ne _ hby']
            exact Nat.succ_lt_succ (ih ha' hb' (Nat.lt_of_succ_lt_succ h))

lemma pairwise_indexOf_dedupFirst : ∀ (l : List String),
    (dedupFirst l).Pairwise (fun a b => l.indexOf a < l.indexOf b) := by
  intro l
  induction l using dedupFirst.induct with
  | case1 => simp [dedupFirst_nil]
  | case2 x xs ih =>
      rw [dedupFirst_cons]
      refine List.Pairwise.cons ?_ ?_
      · intro b hb
        have hbmem : b ∈ xs.filter (fun y => y != x) := mem_dedupFirst.mp hb
        have hbx : x ≠ b := by
          have := (List.mem_filter.mp hbmem).2
          intro hc; subst hc; simp at this
        rw [List.indexOf_cons_self, List.indexOf_cons_ne _ hbx]
        exact Nat.succ_pos _
      · refine List.Pairwise.imp_of_mem ?_ ih
        intro a b ha hb hR
        have ha' : a ∈ xs.filter (fun y => y != x) := mem_dedupFirst.mp ha
        have hb' : b ∈ xs.filter (fun y => y != x) := mem_dedupFirst.mp hb
        have hax : x ≠ a := by
          have := (List.mem_filter.mp ha').2
          intro hc; subst hc; simp at this
        have hbx : x ≠ b := by
          have := (List.mem_filter.mp hb').2
          intro hc; subst hc; simp at this
        rw [List.indexOf_cons_ne _ hax, List.indexOf_cons_ne _ hbx]
        exact Nat.succ_lt_succ (indexOf_filter_mono ha' hb' hR)

lemma foldl_insertIfAbsent_eq : ∀ (ms acc : List String),
    ms.foldl insertIfAbsent acc =
      acc ++ dedupFirst (ms.filter (fun y => decide (y ∉ acc))) := by
  intro ms
  induction ms with
  | nil => intro acc; simp [dedupFirst_nil]
  | cons m ms ih =>
      intro acc
      rw [List.foldl_cons]
      by_cases hm : m ∈ acc
      · have hstep : insertIfAbsent acc m = acc := by
          simp [insertIfAbsent, hm]
        have hfil : (m :: ms).filter (fun y => decide (y ∉ acc)) =
            ms.filter (fun y => decide (y ∉ acc)) := by
          simp [hm]
        rw [hstep, hfil, ih]
      · have hstep : insertIfAbsent acc m = acc ++ [m] := by
          simp [insertIfAbsent, hm]
        have hfil : (m :: ms).filter (fun y => decide (y ∉ acc)) =
            m :: ms.filter (fun y => decide (y ∉ acc)) := by
          simp [hm]
        rw [hstep, ih, hfil, dedupFirst_cons]
        have hpt : ∀ y ∈ ms, (decide (y ∉ acc ++ [m])) =
            ((y != m) && decide (y ∉ acc)) := by
          intro y _
          by_cases h1 : y = m <;> by_cases h2 : y ∈ acc <;> simp [h1, h2]
        rw [List.filter_congr hpt, ← List.filter_filter]
        simp

lemma categoriesOf_eq_dedupFirst {α : Type} (category : α → String)
    (catalog : List α) :
    categoriesOf category catalog = dedupFirst (catalog.map category) := by
  unfold categoriesOf
  rw [foldl_insertIfAbsent_eq]
  simp

lemma setField_isSome (st : FormState) (n : String) (v : FValue)
    (f : String) (h : (st f).isSome = true) :
    ((setField st n v) f).isSome = true := by
  by_cases hf : f = n <;> simp [setField, hf, h]

lemma applyUpdates_isSome : ∀ (ops : List (String × FValue)) (st : FormState),
    (∀ f ∈ declaredRegisterFields, (st f).isSome = true) →
    ∀ f ∈ declaredRegisterFields, ((applyUpdates ops st) f).isSome = true := by
  intro ops
  induction ops with
  | nil => intro st h; exact h
  | cons p ps ih =>
      intro st h
      rw [applyUpdates_cons]
      exact ih (setField st p.1 p.2)
        (fun g hg => setField_isSome st p.1 p.2 g (h g hg))

lemma fieldTypeOk_setField_preserved (ev : ChangeEvent) (st : FormState)
    (hev : wellFormedEv ev = true) (f : String)
    (hf : fieldTypeOk st f = true) :
    fieldTypeOk (handleInputChange ev st) f = true := by
  by_cases hfe : f = ev.name
  · have hch : (ev.ttype == "checkbox") = boolFields.contains f := by
      have h := hev
      unfold wellFormedEv at h
      rw [hfe]
      exact beq_iff_eq.mp h
    have hval : (handleInputChange ev st) f =
        some (if ev.ttype == "checkbox" then FValue.bool ev.checked
              else FValue.str ev.value) := by
      simp [handleInputChange, setField, hfe]
    unfold fieldTypeOk
    rw [hval, hch]
    cases hc : boolFields.contains f <;> simp [hc]
  · have hval : (handleInputChange ev st) f = st f := by
      simp [handleInputChange, setField, hfe]
    unfold fieldTypeOk at hf ⊢
    rw [hval]
    exact hf

lemma typeOkB_applyChanges : ∀ (evs : List ChangeEvent) (st : FormState),
    (∀ e ∈ evs, wellFormedEv e = true) → typeOkB st = true →
    typeOkB (applyChanges evs st) = true := by
  intro evs
  induction evs with
  | nil => intro st _ h; exact h
  | cons e es ih =>
      intro st hwf h
      rw [applyChanges_cons]
      refine ih (handleInputChange e st)
        (fun e' he' => hwf e' (List.mem_cons_of_mem e he')) ?_
      unfold typeOkB at h ⊢
      rw [List.all_eq_true] at h ⊢
      intro f hf
      exact fieldTypeOk_setField_preserved e st
        (hwf e (List.mem_cons_self e es)) f (h f hf)

/-- C1: for every FormState snapshot in which every required field is
non-empty and every format rule passes, `validate` returns the empty
ValidationResult; and for every required field whose value is empty,
`validate` emits a "required" error entry for that field. -/
theorem validate_spec (st : FormState) (schema : List FieldSchema) :
    ((∀ f ∈ schema, f.required = true → isEmptyVal (st f.name) = false) →
     (∀ f ∈ schema, formatOk f.kind (st f.name) = true) →
     validate st schema = []) ∧
    (∀ f ∈ schema, f.required = true → isEmptyVal (st f.name) = true →
      (f.name, "required") ∈ validate st schema) :=
  ⟨fun h1 h2 => validate_eq_nil st schema h1 h2,
   fun f hf hreq hemp => required_mem_validate st schema f hf hreq hemp⟩

/-- C1 witness: the fully-filled Register snapshot validates to the empty
result, and the all-defaults snapshot (empty `firstName`) receives a
"required" entry for `firstName`. -/
theorem validate_spec_witness :
    validate registerFilled registerFields = [] ∧
    ("firstName", "required") ∈ validate registerDefaults registerFields :=
  ⟨(validate_spec registerFilled registerFields).1 (by decide) (by decide),
   (validate_spec registerDefaults registerFields).2
     { name := "firstName", required := true, kind := FieldKind.text }
     (by decide) (by decide) (by decide)⟩

/-- C2: from the `submitting` state, the sink-success event moves the
Submission Controller to `success` and resets the FormState to the schema
defaults (pointwise, for every field name). -/
theorem submit_success_resets (schema : List FieldSchema)
    (defaults : FormState) (c : Controller)
    (h : c.sub = SubState.submitting) :
    (controllerStep schema defaults SubmitEvent.sinkSuccess c).sub =
      SubState.success ∧
    ∀ n, (controllerStep schema defaults SubmitEvent.sinkSuccess c).form n =
      defaults n := by
  obtain ⟨s, f⟩ := c
  cases h
  exact ⟨rfl, fun n => rfl⟩

/-- C2 witness: a submitting controller holding the filled Register
snapshot resets to the Register defaults on sink success. -/
theorem submit_success_resets_witness :
    (controllerStep registerFields registerDefaults SubmitEvent.sinkSuccess
      { sub := SubState.submitting, form := registerFilled }).sub =
      SubState.success ∧
    (controllerStep registerFields registerDefaults SubmitEvent.sinkSuccess
      { sub := SubState.submitting, form := registerFilled }).form
      "firstName" = registerDefaults "firstName" :=
  ⟨(submit_success_resets registerFields registerDefaults
      { sub := SubState.submitting, form := registerFilled } rfl).1,
   (submit_success_resets registerFields registerDefaults
      { sub := SubState.submitting, form := registerFilled } rfl).2 "firstName"⟩

/-- C3: a submission attempt that ends in the `error` state leaves the
FormState unchanged: `idle -> validating` does not touch the fields,
`validating -> error` (errors present) keeps them, `submitting -> error`
(sink failure) keeps them as entered, and since the form is unchanged,
running the Validator again reproduces exactly the same errors. -/
theorem error_preserves_form (schema : List FieldSchema)
    (defaults : FormState) :
    (∀ c : Controller, c.sub = SubState.idle →
      (controllerStep schema defaults SubmitEvent.submit c).sub =
        SubState.validating ∧
      (controllerStep schema defaults SubmitEvent.submit c).form = c.form) ∧
    (∀ c : Controller, c.sub = SubState.validating →
      validate c.form schema ≠ [] →
      (controllerStep schema defaults SubmitEvent.runValidation c).sub =
        SubState.error ∧
      (controllerStep schema defaults SubmitEvent.runValidation c).form =
        c.form) ∧
    (∀ c : Controller, c.sub = SubState.submitting →
      (controllerStep schema defaults SubmitEvent.sinkFailure c).sub =
        SubState.error ∧
      (controllerStep schema defaults SubmitEvent.sinkFailure c).form =
        c.form) ∧
    (∀ c : Controller, c.sub = SubState.validating →
      validate (controllerStep schema defaults SubmitEvent.runValidation
        c).form schema = validate c.form schema) := by
  refine ⟨?_, ?_, ?_, ?_⟩
  · intro c h
    obtain ⟨s, f⟩ := c
    cases h
    exact ⟨rfl, rfl⟩
  · intro c h hv
    obtain ⟨s, f⟩ := c
    cases h
    simp only [controllerStep] at *
    rw [if_neg hv]
    exact ⟨rfl, rfl⟩
  · intro c h
    obtain ⟨s, f⟩ := c
    cases h
    exact ⟨rfl, rfl⟩
  · intro c h
    obtain ⟨s, f⟩ := c
    cases h
    simp only [controllerStep]
    by_cases hv : validate f schema = [] <;> simp [hv]

/-- C3 witness: the all-defaults Register snapshot fails validation, and
the `validating -> error` step keeps the FormState intact. -/
theorem error_preserves_form_witness :
    (controllerStep registerFields registerDefaults SubmitEvent.runValidation
      { sub := SubState.validating, form := registerDefaults }).sub =
      SubState.error ∧
    (controllerStep registerFields registerDefaults SubmitEvent.runValidation
      { sub := SubState.validating, form := registerDefaults }).form =
      registerDefaults :=
  (error_preserves_form registerFields registerDefaults).2.1
    { sub := SubState.validating, form := registerDefaults } rfl (by decide)

/-- C4 counterexample: neither 6-record catalog of the repository carries
the category sequence `["Policy","Policy","Youth","Community",
"Environment","Healthcare"]` the claim asserts, and filtering on
`"Policy"` yields 3 records on the documents catalog and 1 on the media
catalog — never the claimed 2. -/
theorem filter_policy_scenario_counterexample :
    documents.map DocumentRecord.category =
      ["Governance", "Policy", "Policy", "Policy", "Environment", "Youth"] ∧
    mediaArticles.map MediaArticle.category =
      ["Community", "Policy", "Youth", "Environment", "Education", "Healthcare"] ∧
    documents.map DocumentRecord.category ≠
      ["Policy", "Policy", "Youth", "Community", "Environment", "Healthcare"] ∧
    mediaArticles.map MediaArticle.category ≠
      ["Policy", "Policy", "Youth", "Community", "Environment", "Healthcare"] ∧
    (filterByCategory DocumentRecord.category documents "Policy").length = 3 ∧
    (filterByCategory MediaArticle.category mediaArticles "Policy").length = 1 := by
  refine ⟨by decide, by decide, by decide, by decide, by decide, by decide⟩

/-- C4 (amended): for every catalog and every selected category other than
the `"all"` sentinel, every record of the filtered result has that
category, the result is an order-preserving subsequence of the catalog,
and its length is the number of matching records; on the repository's
catalogs, filtering `"Policy"` yields the 3 matching documents (ids 2, 3,
4) and the 1 matching media article (id 2), in original relative order. -/
theorem filterByCategory_correct :
    (∀ (α : Type) (category : α → String) (catalog : List α) (c : String),
      c ≠ "all" →
      (∀ r ∈ filterByCategory category catalog c, category r = c) ∧
      (filterByCategory category catalog c).Sublist catalog ∧
      (filterByCategory category catalog c).length =
        catalog.countP (fun r => category r == c)) ∧
    (filterByCategory DocumentRecord.category documents "Policy").map
      DocumentRecord.id = [2, 3, 4] ∧
    (filterByCategory MediaArticle.category mediaArticles "Policy").map
      MediaArticle.id = [2] := by
  refine ⟨?_, by decide, by decide⟩
  intro α category catalog c hc
  unfold filterByCategory
  rw [if_neg hc]
  refine ⟨?_, List.filter_sublist catalog, ?_⟩
  · intro r hr
    have := (List.mem_filter.mp hr).2
    simpa using this
  · exact (List.countP_eq_length_filter _ _).symm

/-- C4 witness: the generic filter contract instantiated on the documents
catalog at category "Policy". -/
theorem filterByCategory_correct_witness :
    (filterByCategory DocumentRecord.category documents "Policy").length =
      documents.countP (fun r => DocumentRecord.category r == "Policy") :=
  (filterByCategory_correct.1 DocumentRecord DocumentRecord.category
    documents "Policy" (by decide)).2.2

/-- C5: filtering with the `"all"` sentinel is the identity on any
catalog — same membership and same ordering (and, the embedding being a
pure function, the underlying catalog is never mutated). -/
theorem filterByCategory_all_identity :
    ∀ (α : Type) (category : α → String) (catalog : List α),
      filterByCategory category catalog "all" = catalog := by
  intro α category catalog
  simp [filterByCategory]

/-- C6: `categoriesOf` returns the distinct category values present in the
catalog — no duplicates, membership exactly the categories occurring in
the catalog, ordered by each category's first occurrence (first indices
strictly increase along the result); on the repository's catalogs it
yields the concrete first-occurrence orders shown. -/
theorem categoriesOf_spec :
    (∀ (α : Type) (category : α → String) (catalog : List α),
      (categoriesOf category catalog).Nodup ∧
      (∀ c, c ∈ categoriesOf category catalog ↔ c ∈ catalog.map category) ∧
      (categoriesOf category catalog).Sublist (catalog.map category) ∧
      (categoriesOf category catalog).Pairwise
        (fun a b => (catalog.map category).indexOf a <
          (catalog.map category).indexOf b)) ∧
    documentsCategories = ["Governance", "Policy", "Environment", "Youth"] ∧
    mediaCategories =
      ["Community", "Policy", "Youth", "Environment", "Education", "Healthcare"] := by
  refine ⟨?_, by decide, by decide⟩
  intro α category catalog
  rw [categoriesOf_eq_dedupFirst]
  exact ⟨nodup_dedupFirst _, fun c => mem_dedupFirst,
    dedupFirst_sublist _, pairwise_indexOf_dedupFirst _⟩

/-- C7: `setField name value` yields a snapshot whose entry for `name` is
the given value while every other field's entry is unchanged (the model is
a pure function, so the previous snapshot is untouched). -/
theorem setField_frame (st : FormState) (name : String) (v : FValue) :
    (setField st name v) name = some v ∧
    ∀ k, k ≠ name → (setField st name v) k = st k := by
  constructor
  · simp [setField]
  · intro k hk
    simp [setField, hk]

/-- C7 witness: updating `firstName` on the Register defaults stores the
new value there and leaves `lastName` untouched. -/
theorem setField_frame_witness :
    (setField registerDefaults "firstName" (FValue.str "Ada")) "firstName" =
      some (FValue.str "Ada") ∧
    (setField registerDefaults "firstName" (FValue.str "Ada")) "lastName" =
      registerDefaults "lastName" :=
  ⟨(setField_frame registerDefaults "firstName" (FValue.str "Ada")).1,
   (setField_frame registerDefaults "firstName" (FValue.str "Ada")).2
     "lastName" (by decide)⟩

/-- C8 counterexample: the Register form does not initialize every field
to the empty string or `false` — `subscribeNewsletter` starts as `true`
and `membershipType` starts as the non-empty string `"full"`. -/
theorem register_init_counterexample :
    registerDefaults "subscribeNewsletter" = some (FValue.bool true) ∧
    ¬(registerDefaults "subscribeNewsletter" = some (FValue.str "") ∨
      registerDefaults "subscribeNewsletter" = some (FValue.bool false)) ∧
    registerDefaults "membershipType" = some (FValue.str "full") := by
  refine ⟨by decide, by decide, by decide⟩

/-- C8 (amended): every field declared in the Register form's schema has a
defined entry in the initial state and after every sequence of field
updates; the initial values are the schema's declared defaults (empty
string for the plain text fields, `"full"` for `membershipType`, `false`
for `agreeToTerms` and `true` for `subscribeNewsletter`). -/
theorem declared_fields_defined :
    (∀ f ∈ declaredRegisterFields, (registerDefaults f).isSome = true) ∧
    (∀ (ops : List (String × FValue)), ∀ f ∈ declaredRegisterFields,
      ((applyUpdates ops registerDefaults) f).isSome = true) ∧
    registerDefaults "firstName" = some (FValue.str "") ∧
    registerDefaults "agreeToTerms" = some (FValue.bool false) ∧
    registerDefaults "membershipType" = some (FValue.str "full") ∧
    registerDefaults "subscribeNewsletter" = some (FValue.bool true) := by
  refine ⟨by decide, ?_, by decide, by decide, by decide, by decide⟩
  intro ops f hf
  exact applyUpdates_isSome ops registerDefaults (by decide) f hf

/-- C8 witness: after an update to `email`, the declared field `firstName`
still has a defined entry. -/
theorem declared_fields_defined_witness :
    ((applyUpdates [("email", FValue.str "a@b.cd")] registerDefaults)
      "firstName").isSome = true :=
  declared_fields_defined.2.1 [("email", FValue.str "a@b.cd")] "firstName"
    (by decide)

/-- C9: `handleInputChange` stores the boolean `checked` property when the
event target's type is "checkbox" and the string `value` property
otherwise; consequently, after any sequence of events shaped like the
Register form's inputs, the two checkbox fields hold booleans and every
other declared field holds a string. -/
theorem handleInputChange_types :
    (∀ (ev : ChangeEvent) (st : FormState),
      (handleInputChange ev st) ev.name =
        some (if ev.ttype == "checkbox" then FValue.bool ev.checked
              else FValue.str ev.value)) ∧
    (∀ evs : List ChangeEvent, (∀ e ∈ evs, wellFormedEv e = true) →
      typeOkB (applyChanges evs registerDefaults) = true) := by
  constructor
  · intro ev st
    simp [handleInputChange, setField]
  · intro evs hwf
    exact typeOkB_applyChanges evs registerDefaults hwf (by decide)

/-- C9 witness: checking `agreeToTerms` stores a boolean, and after a
checkbox event followed by a text event the typing invariant holds. -/
theorem handleInputChange_types_witness :
    (handleInputChange
      { name := "agreeToTerms", value := "", checked := true,
        ttype := "checkbox" } registerDefaults) "agreeToTerms" =
      some (FValue.bool true) ∧
    typeOkB (applyChanges
      [{ name := "agreeToTerms", value := "", checked := true,
         ttype := "checkbox" },
       { name := "firstName", value := "Ada", checked := false,
         ttype := "text" }] registerDefaults) = true :=
  ⟨handleInputChange_types.1
    { name := "agreeToTerms", value := "", checked := true,
      ttype := "checkbox" } registerDefaults,
   handleInputChange_types.2 _ (by decide)⟩

/-- C10: `featuredArticles` and `regularArticles` partition
`mediaArticles`: each article lands in exactly one of the two lists
according to its `featured` flag, both lists are order-preserving
subsequences of the catalog, the lengths sum to the catalog's length, and
concretely the featured list holds ids 1 and 2 and the regular list ids
3, 4, 5, 6. -/
theorem featured_regular_partition :
    (∀ a ∈ mediaArticles,
      (a.featured = true → a ∈ featuredArticles ∧ a ∉ regularArticles) ∧
      (a.featured = false → a ∈ regularArticles ∧ a ∉ featuredArticles)) ∧
    featuredArticles.Sublist mediaArticles ∧
    regularArticles.Sublist mediaArticles ∧
    featuredArticles.length + regularArticles.length = mediaArticles.length ∧
    featuredArticles.map MediaArticle.id = [1, 2] ∧
    regularArticles.map MediaArticle.id = [3, 4, 5, 6] := by
  refine ⟨?_, List.filter_sublist mediaArticles,
    List.filter_sublist mediaArticles, by decide, by decide, by decide⟩
  intro a ha
  constructor
  · intro hft
    constructor
    · exact List.mem_filter.mpr ⟨ha, hft⟩
    · intro hmem
      have := (List.mem_filter.mp hmem).2
      rw [hft] at this
      simp at this
  · intro hft
    constructor
    · refine List.mem_filter.mpr ⟨ha, ?_⟩
      rw [hft]
      rfl
    · intro hmem
      have := (List.mem_filter.mp hmem).2
      rw [hft] at this
      simp at this

/-- C10 witness: the second media article is featured, so it lies in the
featured list and not in the regular list. -/
theorem featured_regular_partition_witness :
    mediaArticles.get ⟨1, by decide⟩ ∈ featuredArticles ∧
    mediaArticles.get ⟨1, by decide⟩ ∉ regularArticles :=
  (featured_regular_partition.1 (mediaArticles.get ⟨1, by decide⟩)
    (List.get_mem _ _ _)).1 (by decide)

end Devtool
